import Mathlib

/-!
Shallow embedding of the boat-counter pipeline.

The repository's tracking-and-counting engine lives in
`A2_boat_counter_test_full_cooldown.py` (the full-featured counter: per-id
position history, multi-point crossing scan, distance gate, per-id cooldown)
and `boat_counter_full_debug-10.py` (the deployed script: last-x crossing,
per-id cooldown, camera retry with exponential backoff, daylight-aware
sleep loop).  Python dictionaries are modelled as association lists with
dict-style lookup and update; wall-clock time (`time.time()`, a float of
seconds) is modelled as an integer number of seconds; pixel coordinates are integers (all the scripts cast
tracker rows with `map(int, ...)` before using them).
-/

/-- Dict-style lookup in an association list (models Python `d.get(k)` /
`k in d`): returns the value at the first matching key, if any. -/
def alookup {α : Type} : List (Nat × α) → Nat → Option α
  | [], _ => none
  | (k', v') :: rest, k => if k' = k then some v' else alookup rest k

/-- Dict-style update (models Python `d[k] = v`): replaces the value at an
existing key, otherwise appends a fresh binding. -/
def aupdate {α : Type} : List (Nat × α) → Nat → α → List (Nat × α)
  | [], k, v => [(k, v)]
  | (k', v') :: rest, k, v =>
      if k' = k then (k, v) :: rest else (k', v') :: aupdate rest k v

theorem alookup_aupdate_self {α : Type} (m : List (Nat × α)) (k : Nat) (v : α) :
    alookup (aupdate m k v) k = some v := by
  induction m with
  | nil => simp [alookup, aupdate]
  | cons p rest ih =>
      obtain ⟨k', v'⟩ := p
      by_cases h : k' = k
      · simp [alookup, aupdate, h]
      · simp [alookup, aupdate, h, ih]

theorem alookup_aupdate_ne {α : Type} (m : List (Nat × α)) (k j : Nat) (v : α)
    (h : j ≠ k) : alookup (aupdate m k v) j = alookup m j := by
  have h2 : k ≠ j := fun hh => h hh.symm
  induction m with
  | nil => simp [alookup, aupdate, h2]
  | cons p rest ih =>
      obtain ⟨k', v'⟩ := p
      by_cases hk : k' = k
      · subst hk
        simp [alookup, aupdate, h, h2]
      · by_cases hj : k' = j
        · simp [alookup, aupdate, hk, hj, h, h2]
        · simp [alookup, aupdate, hk, hj, ih]

theorem alookup_aupdate_isSome {α : Type} (m : List (Nat × α)) (k j : Nat) (v : α)
    (h : (alookup m j).isSome) : (alookup (aupdate m k v) j).isSome := by
  by_cases hj : j = k
  · subst hj; simp [alookup_aupdate_self]
  · rwa [alookup_aupdate_ne m k j v hj]

/-! ## Crossing counter (A2_boat_counter_test_full_cooldown.py, lines 114-140) -/

/-- Cooldown per boat id, `COOLDOWN_SECONDS = 5` in the source. -/
def COOLDOWN_SECONDS : Int := 5

/-- One confirmed-track observation handed to the counter for one frame:
the tracker row's id and the integer box center `(cx, cy)`. -/
structure Obs where
  id : Nat
  cx : Int
  cy : Int
deriving DecidableEq

/-- The counter's mutable state: `id_history`, `last_count_time`,
`counted_ids` and `totalCount` from the source's tracking-variables block. -/
structure CounterState where
  idHistory : List (Nat × List (Int × Int))
  lastCountTime : List (Nat × Int)
  countedIds : List Nat
  totalCount : List Nat
deriving DecidableEq

/-- The all-empty initial state of the counter. -/
def counterInit : CounterState := ⟨[], [], [], []⟩

/-- Append a center to a history, then keep only the last 15 points
(source: `id_history[id].append(center)` followed by the `[-15:]` trim). -/
def appendHist (h : List (Int × Int)) (c : Int × Int) : List (Int × Int) :=
  let h2 := h ++ [c]
  if 15 < h2.length then h2.drop (h2.length - 15) else h2

/-- One conjunct of the source's crossing scan:
`(x_positions[i] < L < x_positions[i+1]) or (x_positions[i] > L > x_positions[i+1])`. -/
def straddles (L a b : Int) : Bool :=
  (decide (a < L) && decide (L < b)) || (decide (L < a) && decide (b < L))

/-- The crossing scan over the whole x-position history (source's
`any(... for i in range(len(x_positions) - 1))`). -/
def crossedAux (L : Int) : List Int → Bool
  | a :: b :: rest => straddles L a b || crossedAux L (b :: rest)
  | _ => false

/-- Earliest recorded x position, `x_positions[0]` in the source. -/
def firstX (xs : List Int) : Int := xs.headD 0

/-- Latest recorded x position, `x_positions[-1]` in the source. -/
def lastX (xs : List Int) : Int := xs.getLastD 0

/-- Direction label from the history window
(source: `"Right" if x_positions[-1] > x_positions[0] else "Left"`). -/
def directionOf (xs : List Int) : String :=
  if firstX xs < lastX xs then "Right" else "Left"

/-- Net displacement over the history window
(source: `abs(x_positions[-1] - x_positions[0])`). -/
def distanceOf (xs : List Int) : Nat := (lastX xs - firstX xs).natAbs

/-- The history the counter consults for an observation: the stored history
of that id with the new center appended (and trimmed). -/
def currentHistory (s : CounterState) (o : Obs) : List (Int × Int) :=
  appendHist ((alookup s.idHistory o.id).getD []) (o.cx, o.cy)

/-- One loop-body pass of the counter for one tracked observation
(source lines 114-140): append the center to the id's history; if the
history has at least two points, test the crossing scan, the distance gate
(`distance > 15`) and the cooldown (`(now - recent) > COOLDOWN_SECONDS`,
`recent` defaulting to 0); on qualification record the id as counted and
stamp the cooldown ledger.  Returns the new state and whether a counting
event was emitted. -/
def processObs (L : Int) (now : Int) (s : CounterState) (o : Obs) :
    CounterState × Bool :=
  let h := currentHistory s o
  let s1 : CounterState := { s with idHistory := aupdate s.idHistory o.id h }
  if 2 ≤ h.length then
    let xs := h.map Prod.fst
    let recent : Int := (alookup s1.lastCountTime o.id).getD 0
    if crossedAux L xs && decide (15 < distanceOf xs) &&
        decide (COOLDOWN_SECONDS < now - recent) then
      ({ s1 with
          countedIds :=
            if o.id ∈ s1.countedIds then s1.countedIds else s1.countedIds ++ [o.id],
          lastCountTime := aupdate s1.lastCountTime o.id now,
          totalCount := s1.totalCount ++ [o.id] }, true)
    else (s1, false)
  else (s1, false)

/-- One frame of the counter: fold the per-observation pass over the
tracker's confirmed rows for that frame. -/
def processFrame (L : Int) (now : Int) (s : CounterState) (obss : List Obs) :
    CounterState :=
  obss.foldl (fun s o => (processObs L now s o).1) s

/-- Run the counter over a timed trace of observations, collecting the
emitted counting events as `(time, id)` pairs. -/
def runAux (L : Int) : List (Int × Obs) → CounterState → List (Int × Nat) →
    CounterState × List (Int × Nat)
  | [], s, acc => (s, acc)
  | (t, o) :: rest, s, acc =>
      let r := processObs L t s o
      runAux L rest r.1 (if r.2 then acc ++ [(t, o.id)] else acc)

/-- Events emitted over a timed trace starting from the empty state. -/
def runEvents (L : Int) (tr : List (Int × Obs)) : List (Int × Nat) :=
  (runAux L tr counterInit []).2

/-- The times of the events emitted for one id, in emission order. -/
def eventTimes (i : Nat) (evs : List (Int × Nat)) : List Int :=
  (evs.filter (fun e => e.2 == i)).map Prod.fst

/-- A concrete trace for id 1 with the line at 150: a crossing at time 11,
jitter back and forth across the line at times 12 and 13 (still inside the
5-second cooldown), and a re-crossing at time 20 (after the cooldown). -/
def jitterTrace : List (Int × Obs) :=
  [(10, ⟨1, 100, 0⟩), (11, ⟨1, 200, 0⟩), (12, ⟨1, 130, 0⟩),
   (13, ⟨1, 200, 0⟩), (20, ⟨1, 60, 0⟩)]

/-! ## Detection ingestion (A2_boat_counter_test_full_cooldown.py, lines 99-106) -/

/-- One raw detector output row: box corners, confidence and class name,
exactly the fields the ingestion loop reads off each YOLO box. -/
structure RawBox where
  x1 : Int
  y1 : Int
  x2 : Int
  y2 : Int
  conf : ℚ
  cls : String
deriving DecidableEq

/-- Class filter, `CLASS_FILTER = "boat"` in the source. -/
def CLASS_FILTER : String := "boat"

/-- Confidence threshold, `CONFIDENCE_THRESHOLD = 0.15` in the source. -/
def CONFIDENCE_THRESHOLD : ℚ := 15 / 100

/-- Confidence rounding from the source:
`conf = math.ceil((box.conf[0] * 100)) / 100`. -/
def roundConf (c : ℚ) : ℚ := (⌈c * 100⌉ : ℚ) / 100

/-- Detection ingestion for one frame (source lines 99-106): a raw box is
kept when its class matches the filter and its rounded confidence exceeds
the threshold; there is no other condition on the box. -/
def buildDetections (rs : List RawBox) : List RawBox :=
  rs.filter (fun b => b.cls == CLASS_FILTER &&
    decide (CONFIDENCE_THRESHOLD < roundConf b.conf))

/-! ## Tracker dispatch (A2 lines 108-112 and debug-10 lines 250-254) -/

/-- One of the external tracker's internal tracks, with the per-frame
counters the spec attributes to a track. -/
structure Track where
  id : Nat
  age : Nat
  timeSinceUpdate : Nat
deriving DecidableEq

/-- The external tracker's state: its list of active tracks. -/
structure TrackerState where
  tracks : List Track
deriving DecidableEq

/-- The frame loop's tracker dispatch, from the source:
`if len(detections) == 0: resultsTracker = np.empty((0, 5))
else: resultsTracker = tracker.update(detections)`.
The external tracker is a parameter (`update`); on an empty detection list
it is never invoked, and the frame's tracker output is the empty row list. -/
def trackerDispatch
    (update : TrackerState → List RawBox → TrackerState × List (Nat × Int))
    (ts : TrackerState) (dets : List RawBox) :
    TrackerState × List (Nat × Int) :=
  if dets.length = 0 then (ts, []) else update ts dets

/-! ## Deployed counter (boat_counter_full_debug-10.py, lines 260-281) -/

/-- Cooldown per track id, `COOLDOWN_SEC = 5` in the deployed script. -/
def COOLDOWN_SEC : Int := 5

/-- The deployed script's counting state: `id_last_x`, `id_last_count`
and `boat_total`. -/
structure State10 where
  idLastX : List (Nat × Int)
  idLastCount : List (Nat × Int)
  boatTotal : Nat
deriving DecidableEq

/-- One loop-body pass of the deployed counter for one tracker row
(source lines 268-278): read the previous center x (defaulting to the
current one), store the current center x, and count when
`last_x < line_x <= center_x` and the per-id cooldown has elapsed. -/
def processTrack10 (lineX : Int) (now : Int) (st : State10)
    (tid : Nat) (cx : Int) : State10 :=
  let lastSeen := (alookup st.idLastX tid).getD cx
  let st1 : State10 := { st with idLastX := aupdate st.idLastX tid cx }
  let crossed := decide (lastSeen < lineX) && decide (lineX ≤ cx)
  let cooldownOk :=
    decide (COOLDOWN_SEC < now - (alookup st1.idLastCount tid).getD 0)
  if crossed && cooldownOk then
    { st1 with
        boatTotal := st1.boatTotal + 1,
        idLastCount := aupdate st1.idLastCount tid now }
  else st1

/-- One frame of the deployed counter: fold the per-row pass over the
frame's tracker rows `(tid, center_x)`. -/
def processFrame10 (lineX : Int) (now : Int) (st : State10)
    (rows : List (Nat × Int)) : State10 :=
  rows.foldl (fun st r => processTrack10 lineX now st r.1 r.2) st

/-! ## Camera retry (boat_counter_full_debug-10.py, Camera._open, lines 140-162) -/

/-- Maximum camera open attempts, `MAX_CAMERA_RETRY = 5` in the source. -/
def MAX_CAMERA_RETRY : Nat := 5

/-- Backoff base, `RETRY_BACKOFF_SEC = 2` in the source. -/
def RETRY_BACKOFF_SEC : Nat := 2

/-- The retry loop of `Camera._open`: `outcome i` tells whether the attempt
with `retry == i` succeeds; a failed attempt increments `retry` and sleeps
`RETRY_BACKOFF_SEC ** retry` seconds; when `retry` reaches the maximum the
loop falls through to `raise RuntimeError(...)`.  Returns the total seconds
slept and the outcome.  `fuel` is the number of attempts left,
`MAX_CAMERA_RETRY - retry` in the source loop. -/
def openAux (outcome : Nat → Bool) : Nat → Nat → Nat × Except String Unit
  | 0, _ => (0, Except.error "Camera could not be opened after retries")
  | fuel + 1, retry =>
      if outcome retry then (0, Except.ok ())
      else
        let rest := openAux outcome fuel (retry + 1)
        (RETRY_BACKOFF_SEC ^ (retry + 1) + rest.1, rest.2)

/-- `Camera._open` run from `retry = 0` with all `MAX_CAMERA_RETRY`
attempts available. -/
def cameraOpen (outcome : Nat → Bool) : Nat × Except String Unit :=
  openAux outcome MAX_CAMERA_RETRY 0

/-- The nighttime branch of the main loop (source lines 225-230):
`cam.release(); time.sleep(300); cam = Camera()`.  `Camera.__init__` calls
`_open`, and the only exception handler around the main loop is
`except KeyboardInterrupt` (line 291), so a `RuntimeError` raised after the
retries are exhausted propagates out of `main` uncaught: the loop iteration
does not complete and the loop never runs again. -/
def mainStepNight (outcome : Nat → Bool) : Except String Unit :=
  match (cameraOpen outcome).2 with
  | Except.ok _ => Except.ok ()
  | Except.error e => Except.error e

/-! ## Daylight sleep loop (boat_counter_full_debug-10.py, lines 218-236) -/

/-- Observable actions of one main-loop iteration of the deployed script. -/
inductive SEv where
  | releaseCam
  | sleepFive
  | acquireCam
  | procFrame
deriving DecidableEq

/-- One main-loop iteration, keyed by the value of the daylight predicate
`is_daytime(now)` at the top-of-loop check (source lines 225-236): when it
is false the script releases the camera, sleeps 300 s, unconditionally
re-creates the `Camera`, and `continue`s; when it is true it reads and
processes a frame. -/
def schedIter (daytime : Bool) : List SEv :=
  if daytime then [SEv.procFrame]
  else [SEv.releaseCam, SEv.sleepFive, SEv.acquireCam]

/-- A run of the main loop over the successive values of the daylight
predicate, pairing each check with the iteration's actions. -/
def schedRun : List Bool → List (Bool × List SEv)
  | [] => []
  | d :: ds => (d, schedIter d) :: schedRun ds

/-! ## General lemmas about the crossing scan -/

/-- The crossing scan succeeds exactly when some consecutive pair of
recorded x positions straddles the line, in either direction. -/
theorem crossedAux_eq_true_iff (L : Int) (xs : List Int) :
    crossedAux L xs = true ↔
      ∃ p ∈ xs.zip xs.tail, (p.1 < L ∧ L < p.2) ∨ (L < p.1 ∧ p.2 < L) := by
  induction xs with
  | nil => simp [crossedAux]
  | cons a rest ih =>
      cases rest with
      | nil => simp [crossedAux]
      | cons b rest2 =>
          simp only [crossedAux, straddles, Bool.or_eq_true, Bool.and_eq_true,
            decide_eq_true_eq, ih, List.zip_cons_cons, List.tail_cons,
            List.mem_cons, List.tail] at *
          constructor
          · rintro (h | h)
            · exact ⟨(a, b), Or.inl rfl, h⟩
            · obtain ⟨p, hp, hps⟩ := h
              exact ⟨p, Or.inr hp, hps⟩
          · rintro ⟨p, hp | hp, hps⟩
            · subst hp; exact Or.inl hps
            · exact Or.inr ⟨p, hp, hps⟩

/-- A history with fewer than two points never passes the crossing scan. -/
theorem crossedAux_short (L : Int) (xs : List Int) (h : xs.length < 2) :
    crossedAux L xs = false := by
  cases xs with
  | nil => rfl
  | cons a rest =>
      cases rest with
      | nil => rfl
      | cons b rest2 => simp at h; omega

/-! ## C1: the crossing test scans every consecutive pair of the history -/

/-- C1: for a track id with a non-empty position history and line coordinate
`L`, the counter's crossing test on a frame succeeds if and only if some
consecutive pair of x positions in that id's current (post-append) history
straddles `L` strictly, in either direction — the scan covers every
consecutive pair, not merely the two most recent points. -/
theorem crossing_scan_covers_all_pairs (L : Int) (s : CounterState) (o : Obs)
    (hne : (currentHistory s o).map Prod.fst ≠ []) :
    crossedAux L ((currentHistory s o).map Prod.fst) = true ↔
      ∃ p ∈ ((currentHistory s o).map Prod.fst).zip
            ((currentHistory s o).map Prod.fst).tail,
        (p.1 < L ∧ L < p.2) ∨ (L < p.1 ∧ p.2 < L) :=
  crossedAux_eq_true_iff L _

/-- Witness for C1 at a concrete state: id 1 already has the point
`(100, 0)` recorded, the new observation is at x = 200, the line at 150. -/
theorem crossing_scan_covers_all_pairs_w :
    crossedAux 150 ((currentHistory ⟨[(1, [(100, 0)])], [], [], []⟩
        ⟨1, 200, 0⟩).map Prod.fst) = true ↔
      ∃ p ∈ ((currentHistory ⟨[(1, [(100, 0)])], [], [], []⟩
            ⟨1, 200, 0⟩).map Prod.fst).zip
            ((currentHistory ⟨[(1, [(100, 0)])], [], [], []⟩
            ⟨1, 200, 0⟩).map Prod.fst).tail,
        (p.1 < 150 ∧ 150 < p.2) ∨ (150 < p.1 ∧ p.2 < 150) :=
  crossing_scan_covers_all_pairs 150 ⟨[(1, [(100, 0)])], [], [], []⟩
    ⟨1, 200, 0⟩ (by decide)

/-! ## C4: direction is the sign of (latest - earliest) -/

/-- C4: the reported direction is the sign of (latest - earliest) recorded
x position of the current history window: the "Right" label
(left-to-right) when the latest exceeds the earliest, and "Left"
(right-to-left) for the reversed motion. -/
theorem direction_from_sign (xs : List Int) :
    (firstX xs < lastX xs → directionOf xs = "Right") ∧
    (lastX xs < firstX xs → directionOf xs = "Left") := by
  constructor
  · intro h
    simp only [directionOf]
    rw [if_pos h]
  · intro h
    simp only [directionOf]
    rw [if_neg (lt_asymm h)]

/-- Witness for C4: the spec's own example, a track recorded from x = 50
to x = 250 reports "Right" (left-to-right), and the reversed motion
reports "Left". -/
theorem direction_from_sign_w :
    directionOf [50, 250] = "Right" ∧ directionOf [250, 50] = "Left" :=
  ⟨(direction_from_sign [50, 250]).1 (by decide),
   (direction_from_sign [250, 50]).2 (by decide)⟩

/-! ## C9: fewer than two history points never qualify -/

/-- C9: an id whose current history holds fewer than two points is never
counted on that frame, and in particular an id absent from the stored
history — one appearing for the first time in the tracker output — is
never counted on that first frame. -/
theorem short_history_never_counts (L now : Int) (s : CounterState) (o : Obs) :
    ((currentHistory s o).length < 2 → (processObs L now s o).2 = false) ∧
    (alookup s.idHistory o.id = none → (processObs L now s o).2 = false) := by
  have key : (currentHistory s o).length < 2 → (processObs L now s o).2 = false := by
    intro h
    simp only [processObs]
    split
    · omega
    · rfl
  refine ⟨key, fun h => key ?_⟩
  simp [currentHistory, h, appendHist]

/-- Witness for C9: a fresh id observed for the first time from the empty
state is not counted. -/
theorem short_history_never_counts_w :
    (processObs 150 10 counterInit ⟨1, 100, 0⟩).2 = false :=
  (short_history_never_counts 150 10 counterInit ⟨1, 100, 0⟩).2 (by decide)

/-! ## C5: empty detection list — the tracker update is skipped, not aged -/

/-- C5 counterexample: on a frame with an empty detection list the frame
loop never invokes the external tracker, so an existing track with
`age = 3` and `time_since_update = 2` is left exactly as it was — its
counters do not advance, contradicting the claim that the tracker is still
stepped on empty frames. -/
theorem empty_frame_no_aging :
    (trackerDispatch (fun ts _ => (ts, [])) ⟨[⟨7, 3, 2⟩]⟩ []).1 =
      TrackerState.mk [⟨7, 3, 2⟩] ∧
    ¬ ((trackerDispatch (fun ts _ => (ts, [])) ⟨[⟨7, 3, 2⟩]⟩ []).1.tracks.map
        (fun t => (t.age, t.timeSinceUpdate)) = [(4, 3)]) := by
  exact ⟨rfl, by decide⟩

/-- C5 (amended): a frame with an empty detection list is valid input: the
frame loop raises no error, skips the tracker update entirely — leaving
every existing track, its age and its time_since_update unchanged and
creating no new track — produces an empty tracker-row list, and the counter
receives no observation, leaving its state unchanged. -/
theorem empty_frame_skips_tracker
    (update : TrackerState → List RawBox → TrackerState × List (Nat × Int))
    (ts : TrackerState) (L now : Int) (s : CounterState) :
    trackerDispatch update ts [] = (ts, []) ∧ processFrame L now s [] = s :=
  ⟨rfl, rfl⟩

/-! ## C7: the sleep loop reacquires the camera before re-checking daylight -/

/-- C7 counterexample: the claim would require the capture resource to be
reacquired only on an iteration whose daylight check is true; but the
deployed loop's nighttime iteration — daylight predicate false — already
contains the reacquisition (`cam = Camera()` right after the 300 s sleep,
before the predicate is ever re-evaluated). -/
theorem night_iteration_reacquires :
    ¬ (∀ d : Bool, SEv.acquireCam ∈ schedIter d → d = true) := by decide

/-- C7 (amended): whenever the daylight predicate is false at the periodic
check, the iteration releases the capture resource, sleeps the fixed 300 s
and then unconditionally reacquires the capture resource before looping
back; the predicate is re-evaluated only at the top of the next iteration
(releasing the fresh resource again if it is still false), and a frame is
processed exactly on the iterations whose check is true. -/
theorem night_iteration_behavior (ds : List Bool) (d : Bool) (evs : List SEv)
    (h : (d, evs) ∈ schedRun ds) :
    (d = false → evs = [SEv.releaseCam, SEv.sleepFive, SEv.acquireCam]) ∧
    (d = true → evs = [SEv.procFrame]) := by
  induction ds with
  | nil => simp [schedRun] at h
  | cons d0 ds ih =>
      simp only [schedRun, List.mem_cons] at h
      rcases h with h | h
      · rw [Prod.mk.injEq] at h
        obtain ⟨rfl, rfl⟩ := h
        cases d with
        | false => exact ⟨fun _ => rfl, fun ht => by simp at ht⟩
        | true => exact ⟨fun hf => by simp at hf, fun _ => rfl⟩
      · exact ih h

/-- Witness for C7 (amended) on a one-iteration run whose daylight check
is false. -/
theorem night_iteration_behavior_w :
    schedIter false = [SEv.releaseCam, SEv.sleepFive, SEv.acquireCam] :=
  (night_iteration_behavior [false] false (schedIter false)
    (by simp [schedRun])).1 rfl

/-! ## C8: no box-validity check at ingestion -/

/-- C8 counterexample: a malformed box with `x1 = 100 >= x2 = 50` whose
class is "boat" and whose confidence clears the threshold is kept by the
ingestion filter — it is not rejected, there is no validation of
`x1 < x2` anywhere in the ingestion loop. -/
theorem malformed_box_ingested :
    ((⟨100, 10, 50, 60, 9 / 10, "boat"⟩ : RawBox) ∈
        buildDetections [⟨100, 10, 50, 60, 9 / 10, "boat"⟩,
          ⟨10, 10, 60, 60, 9 / 10, "boat"⟩]) ∧
    ¬ ((100 : Int) < 50) := by
  constructor
  · have hc : CONFIDENCE_THRESHOLD < roundConf (9 / 10) := by
      rw [roundConf, CONFIDENCE_THRESHOLD]
      norm_num
    simp [buildDetections, CLASS_FILTER, hc]
  · decide

/-- C8 (amended): the ingestion filter keeps exactly the detections whose
class matches the filter and whose rounded confidence clears the
threshold; membership is independent of the box coordinates, so a
malformed box with `x1 >= x2` passing those two checks is forwarded to the
tracker along with the frame's other detections. -/
theorem ingestion_filters_class_conf_only (rs : List RawBox) (b : RawBox) :
    b ∈ buildDetections rs ↔
      b ∈ rs ∧ b.cls = CLASS_FILTER ∧ CONFIDENCE_THRESHOLD < roundConf b.conf := by
  simp [buildDetections, List.mem_filter, and_assoc]

/-! ## C2: qualification for counting -/

/-- C2: with the frame's wall-clock time past the cooldown interval (as any
real epoch timestamp is), a counting event is emitted for a tracked id on a
frame if and only if (a) the crossing scan succeeds on its current history,
(b) the net displacement across the history window exceeds the minimum
distance threshold of 15, and (c) the id's cooldown-ledger entry is absent
or strictly older than the 5-second cooldown interval. -/
theorem count_qualification (L now : Int) (s : CounterState) (o : Obs)
    (hnow : COOLDOWN_SECONDS < now) :
    (processObs L now s o).2 = true ↔
      (crossedAux L ((currentHistory s o).map Prod.fst) = true ∧
       15 < distanceOf ((currentHistory s o).map Prod.fst) ∧
       (alookup s.lastCountTime o.id = none ∨
        ∃ t, alookup s.lastCountTime o.id = some t ∧
          COOLDOWN_SECONDS < now - t)) := by
  have hcool :
      (COOLDOWN_SECONDS < now - (alookup s.lastCountTime o.id).getD 0) ↔
        (alookup s.lastCountTime o.id = none ∨
         ∃ t, alookup s.lastCountTime o.id = some t ∧
           COOLDOWN_SECONDS < now - t) := by
    cases hl : alookup s.lastCountTime o.id with
    | none => simp [hnow]
    | some t => simp
  simp only [processObs]
  split
  · split
    case isTrue h2 hcond =>
      simp only [Bool.and_eq_true, decide_eq_true_eq] at hcond
      obtain ⟨⟨hcr, hdist⟩, hck⟩ := hcond
      simp only [true_iff]
      exact ⟨hcr, hdist, hcool.mp hck⟩
    case isFalse h2 hcond =>
      constructor
      · intro hfalse; exact absurd hfalse (by simp)
      · rintro ⟨hcr, hdist, hc⟩
        exact absurd (by
          simp only [Bool.and_eq_true, decide_eq_true_eq]
          exact ⟨⟨hcr, hdist⟩, hcool.mpr hc⟩) hcond
  · case isFalse h2 =>
      constructor
      · intro hfalse; exact absurd hfalse (by simp)
      · rintro ⟨hcr, _, _⟩
        have : crossedAux L ((currentHistory s o).map Prod.fst) = false := by
          apply crossedAux_short
          simp only [List.length_map]
          omega
        rw [this] at hcr
        exact absurd hcr (by simp)

/-- Witness for C2: id 1 has one prior point at x = 100 and no cooldown
entry; observed at x = 200 with the line at 150 and wall clock 10 s, it is
counted. -/
theorem count_qualification_w :
    (processObs 150 10 ⟨[(1, [(100, 0)])], [], [], []⟩ ⟨1, 200, 0⟩).2 = true :=
  (count_qualification 150 10 ⟨[(1, [(100, 0)])], [], [], []⟩ ⟨1, 200, 0⟩
      (by decide)).mpr ⟨by decide, by decide, Or.inl (by decide)⟩

/-! ## C10: a frame touches only the ids in its tracker output -/

theorem processObs_idHistory_ne (L now : Int) (s : CounterState) (o : Obs)
    (j : Nat) (hj : j ≠ o.id) :
    alookup (processObs L now s o).1.idHistory j = alookup s.idHistory j := by
  simp only [processObs]
  split
  · split
    · exact alookup_aupdate_ne _ _ _ _ hj
    · exact alookup_aupdate_ne _ _ _ _ hj
  · exact alookup_aupdate_ne _ _ _ _ hj

theorem processObs_lastCount_ne (L now : Int) (s : CounterState) (o : Obs)
    (j : Nat) (hj : j ≠ o.id) :
    alookup (processObs L now s o).1.lastCountTime j =
      alookup s.lastCountTime j := by
  simp only [processObs]
  split
  · split
    · exact alookup_aupdate_ne _ _ _ _ hj
    · rfl
  · rfl

theorem processObs_idHistory_isSome (L now : Int) (s : CounterState) (o : Obs)
    (k : Nat) (h : (alookup s.idHistory k).isSome) :
    (alookup (processObs L now s o).1.idHistory k).isSome := by
  simp only [processObs]
  split
  · split
    · exact alookup_aupdate_isSome _ _ _ _ h
    · exact alookup_aupdate_isSome _ _ _ _ h
  · exact alookup_aupdate_isSome _ _ _ _ h

theorem processObs_lastCount_isSome (L now : Int) (s : CounterState) (o : Obs)
    (k : Nat) (h : (alookup s.lastCountTime k).isSome) :
    (alookup (processObs L now s o).1.lastCountTime k).isSome := by
  simp only [processObs]
  split
  · split
    · exact alookup_aupdate_isSome _ _ _ _ h
    · exact h
  · exact h

theorem processFrame_not_present (L now : Int) (s : CounterState)
    (obss : List Obs) (j : Nat) (hj : j ∉ obss.map Obs.id) :
    alookup (processFrame L now s obss).idHistory j = alookup s.idHistory j ∧
    alookup (processFrame L now s obss).lastCountTime j =
      alookup s.lastCountTime j := by
  induction obss generalizing s with
  | nil => exact ⟨rfl, rfl⟩
  | cons o rest ih =>
      simp only [List.map_cons, List.mem_cons, not_or] at hj
      obtain ⟨hj1, hj2⟩ := hj
      have step : processFrame L now s (o :: rest) =
          processFrame L now (processObs L now s o).1 rest := rfl
      rw [step]
      obtain ⟨e1, e2⟩ := ih ((processObs L now s o).1) hj2
      exact ⟨e1.trans (processObs_idHistory_ne L now s o j hj1),
             e2.trans (processObs_lastCount_ne L now s o j hj1)⟩

theorem processFrame_isSome (L now : Int) (s : CounterState)
    (obss : List Obs) (k : Nat) :
    ((alookup s.idHistory k).isSome →
      (alookup (processFrame L now s obss).idHistory k).isSome) ∧
    ((alookup s.lastCountTime k).isSome →
      (alookup (processFrame L now s obss).lastCountTime k).isSome) := by
  induction obss generalizing s with
  | nil => exact ⟨id, id⟩
  | cons o rest ih =>
      have step : processFrame L now s (o :: rest) =
          processFrame L now (processObs L now s o).1 rest := rfl
      rw [step]
      obtain ⟨e1, e2⟩ := ih ((processObs L now s o).1)
      exact ⟨fun h => e1 (processObs_idHistory_isSome L now s o k h),
             fun h => e2 (processObs_lastCount_isSome L now s o k h)⟩

theorem processTrack10_ne (lineX now : Int) (st : State10) (tid : Nat)
    (cx : Int) (j : Nat) (hj : j ≠ tid) :
    alookup (processTrack10 lineX now st tid cx).idLastX j =
      alookup st.idLastX j ∧
    alookup (processTrack10 lineX now st tid cx).idLastCount j =
      alookup st.idLastCount j := by
  simp only [processTrack10]
  split
  · exact ⟨alookup_aupdate_ne _ _ _ _ hj, alookup_aupdate_ne _ _ _ _ hj⟩
  · exact ⟨alookup_aupdate_ne _ _ _ _ hj, rfl⟩

theorem processTrack10_isSome (lineX now : Int) (st : State10) (tid : Nat)
    (cx : Int) (k : Nat) :
    ((alookup st.idLastX k).isSome →
      (alookup (processTrack10 lineX now st tid cx).idLastX k).isSome) ∧
    ((alookup st.idLastCount k).isSome →
      (alookup (processTrack10 lineX now st tid cx).idLastCount k).isSome) := by
  simp only [processTrack10]
  split
  · exact ⟨fun h => alookup_aupdate_isSome _ _ _ _ h,
           fun h => alookup_aupdate_isSome _ _ _ _ h⟩
  · exact ⟨fun h => alookup_aupdate_isSome _ _ _ _ h, id⟩

theorem processFrame10_not_present (lineX now : Int) (st : State10)
    (rows : List (Nat × Int)) (j : Nat) (hj : j ∉ rows.map Prod.fst) :
    alookup (processFrame10 lineX now st rows).idLastX j =
      alookup st.idLastX j ∧
    alookup (processFrame10 lineX now st rows).idLastCount j =
      alookup st.idLastCount j := by
  induction rows generalizing st with
  | nil => exact ⟨rfl, rfl⟩
  | cons r rest ih =>
      simp only [List.map_cons, List.mem_cons, not_or] at hj
      obtain ⟨hj1, hj2⟩ := hj
      have step : processFrame10 lineX now st (r :: rest) =
          processFrame10 lineX now (processTrack10 lineX now st r.1 r.2) rest := rfl
      rw [step]
      obtain ⟨e1, e2⟩ := ih (processTrack10 lineX now st r.1 r.2) hj2
      obtain ⟨f1, f2⟩ := processTrack10_ne lineX now st r.1 r.2 j hj1
      exact ⟨e1.trans f1, e2.trans f2⟩

theorem processFrame10_isSome (lineX now : Int) (st : State10)
    (rows : List (Nat × Int)) (k : Nat) :
    ((alookup st.idLastX k).isSome →
      (alookup (processFrame10 lineX now st rows).idLastX k).isSome) ∧
    ((alookup st.idLastCount k).isSome →
      (alookup (processFrame10 lineX now st rows).idLastCount k).isSome) := by
  induction rows generalizing st with
  | nil => exact ⟨id, id⟩
  | cons r rest ih =>
      have step : processFrame10 lineX now st (r :: rest) =
          processFrame10 lineX now (processTrack10 lineX now st r.1 r.2) rest := rfl
      rw [step]
      obtain ⟨e1, e2⟩ := ih (processTrack10 lineX now st r.1 r.2)
      obtain ⟨f1, f2⟩ := processTrack10_isSome lineX now st r.1 r.2 k
      exact ⟨fun h => e1 (f1 h), fun h => e2 (f2 h)⟩

/-- C10: processing one frame's tracker output touches only the ids
reported in that frame: for any id absent from the frame, its history
entry, cooldown-ledger entry (full counter), last-position entry and
cooldown entry (deployed counter) are all unchanged; and no entry of any
id is ever deleted — every id with an entry before the frame still has one
after it, in either counter. -/
theorem frame_touches_only_present_ids (L now : Int) (s : CounterState)
    (st : State10) (obss : List Obs) (rows : List (Nat × Int)) (j : Nat)
    (h1 : j ∉ obss.map Obs.id) (h2 : j ∉ rows.map Prod.fst) :
    alookup (processFrame L now s obss).idHistory j = alookup s.idHistory j ∧
    alookup (processFrame L now s obss).lastCountTime j =
      alookup s.lastCountTime j ∧
    alookup (processFrame10 L now st rows).idLastX j = alookup st.idLastX j ∧
    alookup (processFrame10 L now st rows).idLastCount j =
      alookup st.idLastCount j ∧
    (∀ k, (alookup s.idHistory k).isSome →
      (alookup (processFrame L now s obss).idHistory k).isSome) ∧
    (∀ k, (alookup s.lastCountTime k).isSome →
      (alookup (processFrame L now s obss).lastCountTime k).isSome) ∧
    (∀ k, (alookup st.idLastX k).isSome →
      (alookup (processFrame10 L now st rows).idLastX k).isSome) ∧
    (∀ k, (alookup st.idLastCount k).isSome →
      (alookup (processFrame10 L now st rows).idLastCount k).isSome) := by
  obtain ⟨a1, a2⟩ := processFrame_not_present L now s obss j h1
  obtain ⟨b1, b2⟩ := processFrame10_not_present L now st rows j h2
  exact ⟨a1, a2, b1, b2,
    fun k => (processFrame_isSome L now s obss k).1,
    fun k => (processFrame_isSome L now s obss k).2,
    fun k => (processFrame10_isSome L now st rows k).1,
    fun k => (processFrame10_isSome L now st rows k).2⟩

/-- Witness for C10: a frame reporting only id 1 leaves id 2's entries in
both counters untouched. -/
theorem frame_touches_only_present_ids_w :
    alookup (processFrame 150 10 ⟨[(2, [(40, 0)])], [(2, 3)], [2], [2]⟩
        [⟨1, 100, 0⟩]).idHistory 2 =
      alookup (CounterState.mk [(2, [(40, 0)])] [(2, 3)] [2] [2]).idHistory 2 ∧
    alookup (processFrame 150 10 ⟨[(2, [(40, 0)])], [(2, 3)], [2], [2]⟩
        [⟨1, 100, 0⟩]).lastCountTime 2 =
      alookup (CounterState.mk [(2, [(40, 0)])] [(2, 3)] [2] [2]).lastCountTime 2 ∧
    alookup (processFrame10 150 10 ⟨[(2, 40)], [(2, 3)], 1⟩
        [(1, 100)]).idLastX 2 =
      alookup (State10.mk [(2, 40)] [(2, 3)] 1).idLastX 2 ∧
    alookup (processFrame10 150 10 ⟨[(2, 40)], [(2, 3)], 1⟩
        [(1, 100)]).idLastCount 2 =
      alookup (State10.mk [(2, 40)] [(2, 3)] 1).idLastCount 2 ∧
    (∀ k, (alookup (CounterState.mk [(2, [(40, 0)])] [(2, 3)] [2] [2]).idHistory
        k).isSome →
      (alookup (processFrame 150 10 ⟨[(2, [(40, 0)])], [(2, 3)], [2], [2]⟩
        [⟨1, 100, 0⟩]).idHistory k).isSome) ∧
    (∀ k, (alookup (CounterState.mk [(2, [(40, 0)])] [(2, 3)] [2]
        [2]).lastCountTime k).isSome →
      (alookup (processFrame 150 10 ⟨[(2, [(40, 0)])], [(2, 3)], [2], [2]⟩
        [⟨1, 100, 0⟩]).lastCountTime k).isSome) ∧
    (∀ k, (alookup (State10.mk [(2, 40)] [(2, 3)] 1).idLastX k).isSome →
      (alookup (processFrame10 150 10 ⟨[(2, 40)], [(2, 3)], 1⟩
        [(1, 100)]).idLastX k).isSome) ∧
    (∀ k, (alookup (State10.mk [(2, 40)] [(2, 3)] 1).idLastCount k).isSome →
      (alookup (processFrame10 150 10 ⟨[(2, 40)], [(2, 3)], 1⟩
        [(1, 100)]).idLastCount k).isSome) :=
  frame_touches_only_present_ids 150 10
    ⟨[(2, [(40, 0)])], [(2, 3)], [2], [2]⟩ ⟨[(2, 40)], [(2, 3)], 1⟩
    [⟨1, 100, 0⟩] [(1, 100)] 2 (by decide) (by decide)

/-! ## C3: at most one event per cooldown interval per id -/

theorem eventTimes_concat (i j : Nat) (acc : List (Int × Nat)) (t : Int) :
    eventTimes i (acc ++ [(t, j)]) =
      eventTimes i acc ++ if j = i then [t] else [] := by
  by_cases h : j = i <;>
    simp [eventTimes, List.filter_append, h]

/-- When the per-observation pass emits an event, the cooldown ledger gets
stamped with the frame time, and the pre-frame ledger entry (default 0)
was more than the cooldown interval in the past; when it does not emit,
the ledger is untouched. -/
theorem processObs_ledger (L now : Int) (s : CounterState) (o : Obs) :
    ((processObs L now s o).2 = true →
      (processObs L now s o).1.lastCountTime =
        aupdate s.lastCountTime o.id now ∧
      COOLDOWN_SECONDS < now - (alookup s.lastCountTime o.id).getD 0) ∧
    ((processObs L now s o).2 = false →
      (processObs L now s o).1.lastCountTime = s.lastCountTime) := by
  simp only [processObs]
  split
  · split
    case isTrue h2 hcond =>
      simp only [Bool.and_eq_true, decide_eq_true_eq] at hcond
      exact ⟨fun _ => ⟨rfl, hcond.2⟩, fun hf => absurd hf (by simp)⟩
    case isFalse h2 hcond =>
      exact ⟨fun ht => absurd ht (by simp), fun _ => rfl⟩
  · exact ⟨fun ht => absurd ht (by simp), fun _ => rfl⟩

/-- Invariant carried through a run: if each id's ledger entry is the time
of its last recorded event and each id's event times are spaced more than
the cooldown apart, the same spacing holds after running any further trace. -/
theorem runAux_chain (L : Int) (tr : List (Int × Obs)) :
    ∀ (s : CounterState) (acc : List (Int × Nat)),
    (∀ i, alookup s.lastCountTime i = (eventTimes i acc).getLast?) →
    (∀ i, List.Chain' (fun a b => COOLDOWN_SECONDS < b - a) (eventTimes i acc)) →
    ∀ i, List.Chain' (fun a b => COOLDOWN_SECONDS < b - a)
      (eventTimes i (runAux L tr s acc).2) := by
  induction tr with
  | nil => intro s acc _ hch i; exact hch i
  | cons p rest ih =>
      obtain ⟨t, o⟩ := p
      intro s acc hinv hch i
      simp only [runAux]
      by_cases he : (processObs L t s o).2 = true
      · rw [if_pos he]
        have hled := (processObs_ledger L t s o).1 he
        refine ih (processObs L t s o).1 (acc ++ [(t, o.id)]) ?_ ?_ i
        · intro i2
          rw [hled.1, eventTimes_concat]
          by_cases hi : o.id = i2
          · subst hi
            rw [if_pos rfl, alookup_aupdate_self, List.getLast?_concat]
          · rw [if_neg hi, List.append_nil,
              alookup_aupdate_ne _ _ _ _ (fun hh => hi hh.symm)]
            exact hinv i2
        · intro i2
          rw [eventTimes_concat]
          by_cases hi : o.id = i2
          · subst hi
            rw [if_pos rfl]
            rcases hlast : (eventTimes o.id acc).getLast? with _ | x
            · rw [List.getLast?_eq_none_iff] at hlast
              rw [hlast]
              simp
            · rw [List.chain'_append]
              refine ⟨hch o.id, List.chain'_singleton t, ?_⟩
              intro x2 hx2 y hy
              rw [hlast] at hx2
              cases hx2
              cases hy
              have hrec := hled.2
              rw [hinv o.id, hlast] at hrec
              simpa using hrec
          · rw [if_neg hi, List.append_nil]
            exact hch i2
      · rw [if_neg he]
        have hled := (processObs_ledger L t s o).2 (by
          cases hb : (processObs L t s o).2
          · rfl
          · exact absurd hb he)
        refine ih (processObs L t s o).1 acc ?_ hch i
        intro i2
        rw [hled]
        exact hinv i2

/-- C3: counting is at-most-once-per-cooldown-interval per id, not
globally exactly-once.  First conjunct: over any timed trace from the
initial state, any two consecutive counting events for the same id are
strictly more than the 5-second cooldown apart — so within one cooldown
interval an id is counted at most once.  Second conjunct: on the concrete
jitter trace (crossing at t=11, jitter back across the line at t=12 and
t=13 inside the cooldown, re-crossing at t=20 after it), id 1 is counted
exactly once for the first crossing plus jitter, and counted again for
the post-cooldown re-crossing. -/
theorem cooldown_rate_limit :
    (∀ (L : Int) (tr : List (Int × Obs)) (i : Nat),
      List.Chain' (fun a b => COOLDOWN_SECONDS < b - a)
        (eventTimes i (runEvents L tr))) ∧
    eventTimes 1 (runEvents 150 jitterTrace) = [11, 20] := by
  constructor
  · intro L tr i
    exact runAux_chain L tr counterInit [] (fun _ => rfl)
      (fun _ => List.chain'_nil) i
  · decide

/-! ## C6: total backoff delay, and what exhaustion does to the loop -/

/-- Characterization of the retry loop: if the first `N` attempts (counting
from `retry`) fail and — when attempts remain — the next one succeeds, the
loop sleeps exactly `base^(retry+1) + ... + base^(retry+N)` seconds and
returns success exactly when an attempt was left to succeed. -/
theorem openAux_spec (outcome : Nat → Bool) :
    ∀ (fuel retry N : Nat), N ≤ fuel →
    (∀ i, i < N → outcome (retry + i) = false) →
    (N < fuel → outcome (retry + N) = true) →
    openAux outcome fuel retry =
      (∑ i ∈ Finset.range N, RETRY_BACKOFF_SEC ^ (retry + i + 1),
       if N < fuel then Except.ok ()
       else Except.error "Camera could not be opened after retries") := by
  intro fuel
  induction fuel with
  | zero =>
      intro retry N hN _ _
      have hN0 : N = 0 := Nat.le_zero.mp hN
      subst hN0
      simp [openAux]
  | succ fuel ih =>
      intro retry N hN hfail hsucc
      cases N with
      | zero =>
          have h0 : outcome retry = true := by
            simpa using hsucc (Nat.succ_pos fuel)
          simp [openAux, h0, Nat.succ_pos]
      | succ M =>
          have h0 : outcome retry = false := by
            simpa using hfail 0 (Nat.succ_pos M)
          have hM : M ≤ fuel := Nat.lt_succ_iff.mp hN
          have hfail2 : ∀ i, i < M → outcome (retry + 1 + i) = false := by
            intro i hi
            have hx : retry + 1 + i = retry + (i + 1) := by omega
            rw [hx]
            exact hfail (i + 1) (by omega)
          have hsucc2 : M < fuel → outcome (retry + 1 + M) = true := by
            intro hlt
            have hx : retry + 1 + M = retry + (M + 1) := by omega
            rw [hx]
            exact hsucc (by omega)
          have ihr := ih (retry + 1) M hM hfail2 hsucc2
          simp only [openAux, h0, Bool.false_eq_true, if_false, ihr]
          rw [Prod.mk.injEq]
          constructor
          · rw [Finset.sum_range_succ']
            have hcong : ∀ i, retry + 1 + i + 1 = retry + (i + 1) + 1 := by
              intro i; omega
            rw [Finset.sum_congr rfl (fun i _ => by rw [hcong i])]
            have hz : retry + 0 + 1 = retry + 1 := by omega
            rw [hz, Nat.add_comm]
          · have hiff : M < fuel ↔ M + 1 < fuel + 1 := by omega
            by_cases hlt : M < fuel
            · rw [if_pos hlt, if_pos (hiff.mp hlt)]
            · rw [if_neg hlt, if_neg (fun hh => hlt (hiff.mpr hh))]

/-- C6 counterexample: with every open attempt failing, the nighttime
iteration of the main loop does not survive the exhaustion — `Camera()`
raises `RuntimeError`, the only handler around the loop is
`KeyboardInterrupt`, so the iteration ends in the error instead of
returning control to the scheduler for a later retry. -/
theorem retry_exhaustion_kills_loop :
    mainStepNight (fun _ => false) ≠ Except.ok () ∧
    mainStepNight (fun _ => false) =
      Except.error "Camera could not be opened after retries" := by
  have h2 : mainStepNight (fun _ => false) =
      Except.error "Camera could not be opened after retries" := rfl
  exact ⟨by rw [h2]; simp, h2⟩

/-- C6 (amended): for any run of `N <= MAX_CAMERA_RETRY` consecutive
acquisition failures, the total retry delay equals
`base^1 + base^2 + ... + base^N` seconds; and exhausting all attempts is
reported upward as an error — which the main loop does not catch, so the
nighttime iteration ends in that error rather than leaving the scheduler
able to retry on a later tick. -/
theorem backoff_total_and_exhaustion (outcome : Nat → Bool) (N : Nat)
    (hN : N ≤ MAX_CAMERA_RETRY)
    (hfail : ∀ i, i < N → outcome i = false)
    (hsucc : N < MAX_CAMERA_RETRY → outcome N = true) :
    (cameraOpen outcome).1 =
      ∑ i ∈ Finset.range N, RETRY_BACKOFF_SEC ^ (i + 1) ∧
    (N = MAX_CAMERA_RETRY →
      mainStepNight outcome =
        Except.error "Camera could not be opened after retries") := by
  have h := openAux_spec outcome MAX_CAMERA_RETRY 0 N hN
    (by simpa using hfail) (by simpa using hsucc)
  constructor
  · rw [cameraOpen, h]
    simp
  · intro hNe
    subst hNe
    have h2 : (cameraOpen outcome).2 =
        Except.error "Camera could not be opened after retries" := by
      rw [cameraOpen, h]
      simp
    simp [mainStepNight, h2]

/-- Witness for C6 (amended) with all five attempts failing: total sleep
is 2 + 4 + 8 + 16 + 32 seconds and the nighttime iteration ends in the
exhaustion error. -/
theorem backoff_total_and_exhaustion_w :
    (cameraOpen (fun _ => false)).1 =
      ∑ i ∈ Finset.range 5, RETRY_BACKOFF_SEC ^ (i + 1) ∧
    mainStepNight (fun _ => false) =
      Except.error "Camera could not be opened after retries" := by
  have h := backoff_total_and_exhaustion (fun _ => false) 5 (by decide)
    (fun _ _ => rfl) (fun hlt => absurd hlt (by decide))
  exact ⟨h.1, h.2 rfl⟩
